import Mathlib

/-!
Verification of the metastable-pair core of `astroport-core`:
the cached exchange rate (`contracts/pair_metastable/src/state.rs`),
the fixed-rate-provider contract (`contracts/fixed_rate_provider/src/contract.rs`),
the caller-side oracle query (`packages/astroport/src/rate_provider.rs`),
and the amplification schedule / invariant solver described in the spec.

Machine integers are embedded as `Nat` (`u64` heights and times, `u128`
`Decimal` atomics); every division is the truncating `Nat` division, matching
the unsigned truncating division of the Rust types.
-/

namespace Astroport

/-- The `Decimal::DECIMAL_FRACTIONAL` constant of `cosmwasm_std`: a `Decimal` stores
`atomics / 10^18`. -/
def DECIMAL_FRACTIONAL : ℕ := 10 ^ 18

/-- The `Decimal::DECIMAL_FRACTIONAL_SQUARED` constant of `cosmwasm_std`, used by
`Fraction::inv`. -/
def DECIMAL_FRACTIONAL_SQUARED : ℕ := 10 ^ 36

/-- The `cosmwasm_std::Decimal` type: an unsigned fixed-point number with 18 decimal
places, stored as its `u128` atomics value. -/
structure Decimal where
  atomics : ℕ
deriving DecidableEq, Repr

/-- The `Decimal::zero()` value. -/
def Decimal.zero : Decimal := ⟨0⟩

/-- The `Fraction::inv` implementation for `cosmwasm_std::Decimal`: `None` on zero, otherwise
`Decimal(DECIMAL_FRACTIONAL_SQUARED / atomics)` with truncating division. -/
def Decimal.inv (d : Decimal) : Option Decimal :=
  if d.atomics = 0 then none else some ⟨DECIMAL_FRACTIONAL_SQUARED / d.atomics⟩

/-- The `astroport::asset::AssetInfo` enum: a native denom or a cw20 token address.
`AssetInfo::equal` is structural equality. -/
inductive AssetInfo where
  | nativeToken (denom : String)
  | token (contractAddr : String)
deriving DecidableEq, Repr

/-- Failure modes of the `state.rs` cache operations.  `genericErr*` mirror the
`StdError::generic_err` messages; `panicUnwrap` marks the Rust panic on
`.inv().unwrap()` of a zero rate (not a returned error in the source). -/
inductive StateError where
  /-- message: Exchange rate must be greater that zero -/
  | genericErrRateNotPositive
  /-- message: Exchange rate cache blocks to live must be greater than 0 -/
  | genericErrBtlZero
  /-- message: Given assets don't belong to the pair -/
  | genericErrAssetMismatch
  /-- Rust panic of `.unwrap()` on `None` (zero-rate inversion). -/
  | panicUnwrap
deriving DecidableEq, Repr

/-- The `CachedExchangeRate` struct of `contracts/pair_metastable/src/state.rs`:
the cached oracle rate of asset 0 to asset 1 for one asset pair,
with the observation height and the blocks-to-live window. -/
structure CachedExchangeRate where
  asset_infos : AssetInfo × AssetInfo
  exchange_rate : Decimal
  height : ℕ
  btl : ℕ
deriving DecidableEq, Repr

/-- Embeds `CachedExchangeRate::new`: rejects a non-positive rate (`Decimal` is
unsigned, so `rate <= zero` is `rate = 0`) and a zero `btl`. -/
def CachedExchangeRate.new (infos : AssetInfo × AssetInfo) (rate : Decimal)
    (height btl : ℕ) : Except StateError CachedExchangeRate :=
  if rate.atomics = 0 then .error .genericErrRateNotPositive
  else if btl = 0 then .error .genericErrBtlZero
  else .ok ⟨infos, rate, height, btl⟩

/-- Embeds `CachedExchangeRate::get_rate`: the stored rate for the stored order, its
`inv().unwrap()` for the reversed order, an error otherwise. -/
def CachedExchangeRate.get_rate (c : CachedExchangeRate)
    (req : AssetInfo × AssetInfo) : Except StateError Decimal :=
  if req.1 = c.asset_infos.1 ∧ req.2 = c.asset_infos.2 then
    .ok c.exchange_rate
  else if req.1 = c.asset_infos.2 ∧ req.2 = c.asset_infos.1 then
    match c.exchange_rate.inv with
    | some r => .ok r
    | none => .error .panicUnwrap
  else .error .genericErrAssetMismatch

/-- Embeds `CachedExchangeRate::update_rate`: rejects a zero rate, stores the rate
verbatim for the stored order, stores `rate.inv().unwrap()` for the reversed
order, errors on any other pair.  The supplied rate is nonzero past the first
guard, so the reversed-order `unwrap` cannot panic here. -/
def CachedExchangeRate.update_rate (c : CachedExchangeRate)
    (req : AssetInfo × AssetInfo) (rate : Decimal) (height : ℕ) :
    Except StateError CachedExchangeRate :=
  if rate.atomics = 0 then .error .genericErrRateNotPositive
  else if req.1 = c.asset_infos.1 ∧ req.2 = c.asset_infos.2 then
    .ok { c with exchange_rate := rate, height := height }
  else if req.1 = c.asset_infos.2 ∧ req.2 = c.asset_infos.1 then
    match rate.inv with
    | some r => .ok { c with exchange_rate := r, height := height }
    | none => .error .panicUnwrap
  else .error .genericErrAssetMismatch

/-- Embeds `CachedExchangeRate::update_btl`: rejects a zero blocks-to-live. -/
def CachedExchangeRate.update_btl (c : CachedExchangeRate) (btl : ℕ) :
    Except StateError CachedExchangeRate :=
  if btl = 0 then .error .genericErrBtlZero
  else .ok { c with btl := btl }

/-- Embeds `CachedExchangeRate::is_expired`: `height >= self.height + self.btl`. -/
def CachedExchangeRate.is_expired (c : CachedExchangeRate) (height : ℕ) :
    Bool :=
  c.height + c.btl ≤ height

/-- The state left by `update_rate` under the host's all-or-nothing commit:
the new entry on success, the old entry on failure (the source performs no
field write before any of its early returns). -/
def CachedExchangeRate.afterUpdateRate (c : CachedExchangeRate)
    (req : AssetInfo × AssetInfo) (rate : Decimal) (height : ℕ) :
    CachedExchangeRate :=
  match c.update_rate req rate height with
  | .ok c2 => c2
  | .error _ => c

/-- The state left by `update_btl`: the new entry on success, the old entry on
failure. -/
def CachedExchangeRate.afterUpdateBtl (c : CachedExchangeRate) (btl : ℕ) :
    CachedExchangeRate :=
  match c.update_btl btl with
  | .ok c2 => c2
  | .error _ => c

/-- The `GetExchangeRateResponse` struct of `packages/astroport/src/rate_provider.rs`. -/
structure GetExchangeRateResponse where
  offer_asset : AssetInfo
  ask_asset : AssetInfo
  exchange_rate : Decimal
deriving DecidableEq, Repr

/-- Failure modes of the caller-side oracle query. -/
inductive QueryError where
  /-- message: Exchange rate from rate provider must be greater that zero -/
  | genericErrRateNotPositive
  /-- Failure of the underlying wasm smart query, propagated verbatim by `?`. -/
  | queryFailed
deriving DecidableEq, Repr

/-- Embeds `query_exchange_rate` of `rate_provider.rs` as a function of the
oracle round-trip result: a failed query propagates, a response with
`exchange_rate <= 0` (unsigned: `= 0`) is rejected, any other response is
returned unchanged. -/
def query_exchange_rate (queried : Except QueryError GetExchangeRateResponse) :
    Except QueryError GetExchangeRateResponse :=
  match queried with
  | .error e => .error e
  | .ok er =>
    if er.exchange_rate.atomics = 0 then .error .genericErrRateNotPositive
    else .ok er

/-- The `Config` record as constructed and read by
`contracts/fixed_rate_provider/src/contract.rs` (its `instantiate` stores the
asset pair and the rate). -/
structure FixedRateConfig where
  asset_infos : AssetInfo × AssetInfo
  exchange_rate : Decimal
deriving DecidableEq, Repr

/-- The `ExecuteMsg` enum of `packages/astroport/src/fixed_rate_provider.rs`. -/
inductive FixedRateExecuteMsg where
  | updateExchangeRate (exchange_rate : Decimal)
deriving DecidableEq, Repr

/-- Failure modes of the fixed-rate-provider `query_rate`. -/
inductive FixedRateQueryError where
  /-- message: Given ask asset doesn't belong to pairs -/
  | genericErrAssetMismatch
  /-- Rust panic: `Uint256` division by zero inside `Decimal256::one() / rate`. -/
  | panicDivByZero
deriving DecidableEq, Repr

/-- Embeds `update_exchange_rate` of the fixed-rate provider: overwrites the
stored rate verbatim; the handler reads neither the sender (its `_info`
parameter is unused) nor the rate value (no validation). -/
def update_exchange_rate (cfg : FixedRateConfig) (_info : String)
    (rate : Decimal) : FixedRateConfig :=
  { cfg with exchange_rate := rate }

/-- Embeds `execute` of the fixed-rate provider: dispatches
`UpdateExchangeRate` to `update_exchange_rate`. -/
def fixed_rate_execute (cfg : FixedRateConfig) (info : String)
    (msg : FixedRateExecuteMsg) : Except QueryError FixedRateConfig :=
  match msg with
  | .updateExchangeRate rate => .ok (update_exchange_rate cfg info rate)

/-- Embeds `query_rate` of the fixed-rate provider: the stored rate for the
stored order; for the reversed order
`(Decimal256::one() / Decimal256::from(rate)).into()`, i.e.
`10^36 / atomics` truncated, computed in 256-bit width (no overflow possible;
a zero stored rate makes the `Uint256` division panic); otherwise an error. -/
def query_rate (cfg : FixedRateConfig) (offer_asset ask_asset : AssetInfo) :
    Except FixedRateQueryError Decimal :=
  if cfg.asset_infos.1 = offer_asset ∧ cfg.asset_infos.2 = ask_asset then
    .ok cfg.exchange_rate
  else if cfg.asset_infos.1 = ask_asset ∧ cfg.asset_infos.2 = offer_asset then
    if cfg.exchange_rate.atomics = 0 then .error .panicDivByZero
    else .ok ⟨DECIMAL_FRACTIONAL_SQUARED / cfg.exchange_rate.atomics⟩
  else .error .genericErrAssetMismatch

/-- Modelled from the spec: the `MAX_AMP` bound of
`contracts/pair_metastable/src/math.rs`, which is missing from the sources
(only `error.rs` and the integration test reference it).  The claims depend
only on the constant being fixed and positive. -/
def MAX_AMP : ℕ := 1000000

/-- Modelled from the spec: the `MAX_AMP_CHANGE` factor of the missing
`math.rs` (the largest allowed ratio between the old and the new amp). -/
def MAX_AMP_CHANGE : ℕ := 10

/-- Modelled from the spec: the `MIN_AMP_CHANGING_TIME` interval in seconds of
the missing `math.rs`. -/
def MIN_AMP_CHANGING_TIME : ℕ := 86400

/-- The amplification ramp anchors held in the pair `Config`
(`contracts/pair_metastable/src/state.rs`). -/
structure AmpSchedule where
  init_amp : ℕ
  init_amp_time : ℕ
  next_amp : ℕ
  next_amp_time : ℕ
deriving DecidableEq, Repr

/-- Modelled from the spec: `current_amp` of the missing
`pair_metastable/src/contract.rs`.  Spec formula:
`init_amp + (next_amp - init_amp) * clamp(now - init_amp_time, 0,
next_amp_time - init_amp_time) / (next_amp_time - init_amp_time)`, flat
(`init_amp`) when `next_amp_time = init_amp_time`; division truncates and the
downward ramp is computed on the nonnegative difference, matching the unsigned
`u64` arithmetic. -/
def current_amp (s : AmpSchedule) (now : ℕ) : ℕ :=
  if s.next_amp_time = s.init_amp_time then s.init_amp
  else
    let T := s.next_amp_time - s.init_amp_time
    let e := min (now - s.init_amp_time) T
    if s.init_amp ≤ s.next_amp then
      s.init_amp + (s.next_amp - s.init_amp) * e / T
    else
      s.init_amp - (s.init_amp - s.next_amp) * e / T

/-- Errors of `start_ramp`, named after the `ContractError` variants of
`contracts/pair_metastable/src/error.rs`. -/
inductive AmpError where
  | incorrectAmp
  | maxAmpChangeAssertion
  | minAmpChangingTimeAssertion
deriving DecidableEq, Repr

/-- Modelled from the spec: `start_ramp` (the `StartChangingAmp` handler of
the missing `pair_metastable/src/contract.rs`).  It rejects, in order: a zero
or above-`MAX_AMP` target (`IncorrectAmp`); an old/new ratio beyond
`MAX_AMP_CHANGE` in either direction (`MaxAmpChangeAssertion`), the ratio
guard written multiplicatively against the current interpolated amp; a call
fewer than `MIN_AMP_CHANGING_TIME` seconds after the previous ramp start
(`MinAmpChangingTimeAssertion`).  On success it re-anchors the schedule at the
current amp and time. -/
def start_ramp (s : AmpSchedule) (next_amp next_amp_time now : ℕ) :
    Except AmpError AmpSchedule :=
  if next_amp = 0 ∨ MAX_AMP < next_amp then .error .incorrectAmp
  else
    let old := current_amp s now
    if next_amp * MAX_AMP_CHANGE < old ∨ old * MAX_AMP_CHANGE < next_amp then
      .error .maxAmpChangeAssertion
    else if now < s.init_amp_time + MIN_AMP_CHANGING_TIME then
      .error .minAmpChangingTimeAssertion
    else .ok ⟨old, now, next_amp, next_amp_time⟩

/-- The schedule left by `start_ramp` under the host's all-or-nothing commit:
the new schedule on success, the old schedule on failure. -/
def afterStartRamp (s : AmpSchedule) (next_amp next_amp_time now : ℕ) :
    AmpSchedule :=
  match start_ramp s next_amp next_amp_time now with
  | .ok s2 => s2
  | .error _ => s

/-- Modelled from the spec: the fixed maximum Newton iteration bound of the
missing `pair_metastable/src/math.rs` (the spec fixes no number; 32 is the
customary stableswap bound, and every fact proved below converges within a
handful of iterations, so the exact value is immaterial). -/
def ITERATIONS : ℕ := 32

/-- Modelled from the spec: the per-iteration product
`D_p = D^(n+1) / (n^n · x₀ · x₁)` for `n = 2`, accumulated with a truncating
division after each balance as in stableswap implementations. -/
def d_p (x0 x1 d : ℕ) : ℕ :=
  d * d / (x0 * 2) * d / (x1 * 2)

/-- Modelled from the spec: one Newton step for the invariant,
`D_next = (Ann·S + D_p·n) · D / ((Ann − 1)·D + (n+1)·D_p)` with `n = 2` and
truncating division. -/
def d_step (ann s x0 x1 d : ℕ) : ℕ :=
  (ann * s + d_p x0 x1 d * 2) * d / ((ann - 1) * d + 3 * d_p x0 x1 d)

/-- Modelled from the spec: the `compute_d` Newton loop; converges when two
successive iterates differ by at most one unit, fails (`none`, the
`ConvergenceError`) when the iteration bound is exhausted. -/
def d_iter (ann s x0 x1 : ℕ) : ℕ → ℕ → Option ℕ
  | 0, _ => none
  | fuel + 1, d =>
    let d2 := d_step ann s x0 x1 d
    if d2 ≤ d + 1 ∧ d ≤ d2 + 1 then some d2 else d_iter ann s x0 x1 fuel d2

/-- Modelled from the spec: `compute_d(x₀, x₁, amp)` with `Ann = amp · n^n`
(`n = 2`, `amp` already carrying the ×100 precision factor), starting from
`D₀ = x₀ + x₁`. -/
def compute_d (x0 x1 amp : ℕ) : Option ℕ :=
  d_iter (amp * 4) (x0 + x1) x0 x1 ITERATIONS (x0 + x1)

/-- Modelled from the spec: one Newton step of the one-dimensional solve,
`y_next = (y² + c) / (2y + b − D)` with truncating division and the unsigned
subtraction of the source. -/
def y_step (b c d y : ℕ) : ℕ :=
  (y * y + c) / (2 * y + b - d)

/-- Modelled from the spec: the `compute_y` Newton loop under the identical
tolerance / iteration-bound rule. -/
def y_iter (b c d : ℕ) : ℕ → ℕ → Option ℕ
  | 0, _ => none
  | fuel + 1, y =>
    let y2 := y_step b c d y
    if y2 ≤ y + 1 ∧ y ≤ y2 + 1 then some y2 else y_iter b c d fuel y2

/-- Modelled from the spec: `compute_y(x_known, D, amp)` with
`c = D^(n+1) / (n^n · x_known · Ann)` as the spec writes it, the standard
stableswap linear coefficient `b = x_known + D / Ann` (the spec appeals to
"the same Newton iteration in one dimension" without spelling `b` out), and
the iteration started from `y₀ = D`. -/
def compute_y (x_known d amp : ℕ) : Option ℕ :=
  y_iter (x_known + d / (amp * 4)) (d * d * d / (4 * x_known * (amp * 4))) d
    ITERATIONS d

/-- Bundles the round-trip check of the claim: `compute_d` followed by
`compute_y` on the first balance, requiring a result within one unit of the
second balance. -/
def roundTripWithinOne (x0 x1 amp : ℕ) : Bool :=
  match compute_d x0 x1 amp with
  | none => false
  | some d =>
    match compute_y x0 d amp with
    | none => false
    | some y => decide (y ≤ x1 + 1 ∧ x1 ≤ y + 1)

/-- Convergence of `d_iter` in one step once `d` is an exact fixed point of
the Newton step. -/
theorem d_iter_converged (ann s x0 x1 d fuel : ℕ)
    (h : d_step ann s x0 x1 d = d) :
    d_iter ann s x0 x1 (fuel + 1) d = some d := by
  simp [d_iter, h]

/-- A sample native asset used by concrete witnesses. -/
def uusd : AssetInfo := .nativeToken ("uusd")

/-- A second sample native asset used by concrete witnesses. -/
def uluna : AssetInfo := .nativeToken ("uluna")

/-- A sample cache entry (rate 0.2, height 1, btl 10), as in the unit test of
`state.rs`. -/
def sampleEntry : CachedExchangeRate := ⟨(uusd, uluna), ⟨2 * 10 ^ 17⟩, 1, 10⟩

/-- A sample cache entry whose rate 3.0 does not divide `10^36` in atomics. -/
def threeEntry : CachedExchangeRate := ⟨(uusd, uluna), ⟨3 * 10 ^ 18⟩, 1, 10⟩

/-- C2: for every cached entry, `is_expired h` is true exactly when
`h ≥ height + btl`, and in particular false on `[height, height + btl)`. -/
theorem is_expired_iff_reached_expiry (c : CachedExchangeRate) (h : ℕ) :
    (c.is_expired h = true ↔ c.height + c.btl ≤ h) ∧
    (c.height ≤ h → h < c.height + c.btl → c.is_expired h = false) := by
  constructor
  · simp [CachedExchangeRate.is_expired]
  · intro _ hlt
    simp only [CachedExchangeRate.is_expired, decide_eq_false_iff_not]
    omega

/-- Closed witness for C2: for the sample entry (height 1, btl 10), height 10
is not yet expired. -/
theorem is_expired_iff_reached_expiry_witness : sampleEntry.is_expired 10 = false :=
  (is_expired_iff_reached_expiry sampleEntry 10).2 (by decide) (by decide)

/-- C3: for a cached entry on a pair of distinct assets with a nonzero stored
rate, `get_rate` returns the stored rate for the stored order, the fixed-point
multiplicative inverse `10^36 / atomics` for the reversed order, and fails for
every other requested pair (including the doubled pair). -/
theorem get_rate_directions (c : CachedExchangeRate)
    (hne : c.asset_infos.1 ≠ c.asset_infos.2)
    (hr : c.exchange_rate.atomics ≠ 0) :
    c.get_rate (c.asset_infos.1, c.asset_infos.2) = .ok c.exchange_rate ∧
    c.get_rate (c.asset_infos.2, c.asset_infos.1) =
      .ok ⟨DECIMAL_FRACTIONAL_SQUARED / c.exchange_rate.atomics⟩ ∧
    ∀ req : AssetInfo × AssetInfo,
      req ≠ (c.asset_infos.1, c.asset_infos.2) →
      req ≠ (c.asset_infos.2, c.asset_infos.1) →
      c.get_rate req = .error .genericErrAssetMismatch := by
  refine ⟨?_, ?_, ?_⟩
  · simp [CachedExchangeRate.get_rate]
  · have h1 : ¬ (c.asset_infos.2 = c.asset_infos.1 ∧ c.asset_infos.1 = c.asset_infos.2) :=
      fun h => hne h.2
    simp [CachedExchangeRate.get_rate, h1, Decimal.inv, hr]
  · rintro ⟨r1, r2⟩ h1 h2
    have n1 : ¬ (r1 = c.asset_infos.1 ∧ r2 = c.asset_infos.2) := by
      intro h
      exact h1 (by simp [Prod.ext_iff, h.1, h.2])
    have n2 : ¬ (r1 = c.asset_infos.2 ∧ r2 = c.asset_infos.1) := by
      intro h
      exact h2 (by simp [Prod.ext_iff, h.1, h.2])
    simp [CachedExchangeRate.get_rate, n1, n2]

/-- Closed witness for C3: the sample entry (rate 0.2) answers the reversed
lookup with rate 5 and rejects a doubled pair. -/
theorem get_rate_directions_witness :
    sampleEntry.get_rate (uluna, uusd) =
      .ok ⟨DECIMAL_FRACTIONAL_SQUARED / sampleEntry.exchange_rate.atomics⟩ ∧
    sampleEntry.get_rate (uusd, uusd) = .error .genericErrAssetMismatch :=
  ⟨(get_rate_directions sampleEntry (by decide) (by decide)).2.1,
   (get_rate_directions sampleEntry (by decide) (by decide)).2.2
     (uusd, uusd) (by decide) (by decide)⟩

/-- C4 counterexample: with stored rate 3.0 the inversion round-trip is not
exact: the reversed rate is 0.333333333333333333, and applying the fixed-point
inversion rule to it gives 3.000000000000000003, not 3.0. -/
theorem get_rate_inv_roundtrip_cex :
    threeEntry.get_rate (uusd, uluna) = .ok ⟨3 * 10 ^ 18⟩ ∧
    threeEntry.get_rate (uluna, uusd) = .ok ⟨333333333333333333⟩ ∧
    Decimal.inv ⟨333333333333333333⟩ = some ⟨3000000000000000003⟩ ∧
    (⟨3000000000000000003⟩ : Decimal) ≠ ⟨3 * 10 ^ 18⟩ := by
  refine ⟨rfl, rfl, by decide, by decide⟩

/-- C4 amended: the reversed lookup returns the fixed-point inverse
`10^36 / atomics`; inverting it again never falls below the stored rate, and
recovers it exactly whenever the stored atomics value divides `10^36` — but
not in general (stored rate 3.0 re-inverts to 3.000000000000000003, see the
counterexample). -/
theorem get_rate_inv_roundtrip (c : CachedExchangeRate)
    (hne : c.asset_infos.1 ≠ c.asset_infos.2)
    (h0 : 0 < c.exchange_rate.atomics)
    (hle : c.exchange_rate.atomics ≤ DECIMAL_FRACTIONAL_SQUARED) :
    c.get_rate (c.asset_infos.2, c.asset_infos.1) =
      .ok ⟨DECIMAL_FRACTIONAL_SQUARED / c.exchange_rate.atomics⟩ ∧
    c.exchange_rate.atomics ≤
      DECIMAL_FRACTIONAL_SQUARED /
        (DECIMAL_FRACTIONAL_SQUARED / c.exchange_rate.atomics) ∧
    (c.exchange_rate.atomics ∣ DECIMAL_FRACTIONAL_SQUARED →
      DECIMAL_FRACTIONAL_SQUARED /
        (DECIMAL_FRACTIONAL_SQUARED / c.exchange_rate.atomics) =
        c.exchange_rate.atomics) := by
  refine ⟨?_, ?_, ?_⟩
  · have h1 : ¬ (c.asset_infos.2 = c.asset_infos.1 ∧ c.asset_infos.1 = c.asset_infos.2) :=
      fun h => hne h.2
    simp [CachedExchangeRate.get_rate, h1, Decimal.inv, Nat.pos_iff_ne_zero.mp h0]
  · have hq : 0 < DECIMAL_FRACTIONAL_SQUARED / c.exchange_rate.atomics :=
      Nat.div_pos hle h0
    rw [Nat.le_div_iff_mul_le hq]
    exact Nat.mul_div_le _ _
  · intro hdvd
    exact Nat.div_div_self hdvd (by norm_num [DECIMAL_FRACTIONAL_SQUARED])

/-- Closed witness for C4 (amended): instantiated at the rate-3.0 entry, the
inverse of the reversed rate is at least the stored rate. -/
theorem get_rate_inv_roundtrip_witness :
    threeEntry.exchange_rate.atomics ≤
      DECIMAL_FRACTIONAL_SQUARED /
        (DECIMAL_FRACTIONAL_SQUARED / threeEntry.exchange_rate.atomics) :=
  (get_rate_inv_roundtrip threeEntry (by decide) (by decide) (by decide)).2.1

/-- C7: `update_rate` fails on a zero rate and `update_btl` fails on a zero
blocks-to-live, and every failing run of either operation leaves the cached
entry unchanged. -/
theorem update_rate_update_btl_failures (c : CachedExchangeRate)
    (req : AssetInfo × AssetInfo) (rate : Decimal) (height btl : ℕ) :
    (rate.atomics = 0 →
      c.update_rate req rate height = .error .genericErrRateNotPositive) ∧
    (btl = 0 → c.update_btl btl = .error .genericErrBtlZero) ∧
    (∀ e, c.update_rate req rate height = .error e →
      c.afterUpdateRate req rate height = c) ∧
    (∀ e, c.update_btl btl = .error e → c.afterUpdateBtl btl = c) := by
  refine ⟨?_, ?_, ?_, ?_⟩
  · intro h
    simp [CachedExchangeRate.update_rate, h]
  · intro h
    simp [CachedExchangeRate.update_btl, h]
  · intro e he
    simp [CachedExchangeRate.afterUpdateRate, he]
  · intro e he
    simp [CachedExchangeRate.afterUpdateBtl, he]

/-- Closed witness for C7: a zero rate and a zero btl are rejected on the
sample entry. -/
theorem update_rate_update_btl_failures_witness :
    sampleEntry.update_rate (uusd, uluna) ⟨0⟩ 5 =
      .error .genericErrRateNotPositive ∧
    sampleEntry.update_btl 0 = .error .genericErrBtlZero :=
  ⟨(update_rate_update_btl_failures sampleEntry (uusd, uluna) ⟨0⟩ 5 0).1 rfl,
   (update_rate_update_btl_failures sampleEntry (uusd, uluna) ⟨0⟩ 5 0).2.1 rfl⟩

/-- C8: the caller-side oracle query rejects every response whose rate is
non-positive, and whenever it succeeds the returned response is exactly the
oracle's own response with a nonzero rate (no substitution). -/
theorem query_exchange_rate_rejects_nonpositive (er : GetExchangeRateResponse) :
    (er.exchange_rate.atomics = 0 →
      query_exchange_rate (.ok er) = .error .genericErrRateNotPositive) ∧
    (∀ q er2, query_exchange_rate q = .ok er2 →
      er2.exchange_rate.atomics ≠ 0 ∧ q = .ok er2) := by
  constructor
  · intro h
    simp [query_exchange_rate, h]
  · intro q er2 hq
    cases q with
    | error e => simp [query_exchange_rate] at hq
    | ok er3 =>
      by_cases h : er3.exchange_rate.atomics = 0
      · simp [query_exchange_rate, h] at hq
      · simp [query_exchange_rate, h] at hq
        subst hq
        exact ⟨h, rfl⟩

/-- Closed witness for C8: a zero-rate oracle response is rejected. -/
theorem query_exchange_rate_rejects_nonpositive_witness :
    query_exchange_rate (.ok ⟨uusd, uluna, ⟨0⟩⟩) =
      .error .genericErrRateNotPositive :=
  (query_exchange_rate_rejects_nonpositive ⟨uusd, uluna, ⟨0⟩⟩).1 rfl

/-- C9: reversed `update_rate` with the accepted rate
1.000000000000000001 * 10^18 (atomics `10^36 + 1`) stores the truncated
inverse zero; afterwards the forward lookup returns the non-positive rate 0
and the reversed lookup panics on `inv().unwrap()`. -/
theorem update_rate_reversed_overflow_stores_zero :
    sampleEntry.update_rate (uluna, uusd) ⟨10 ^ 36 + 1⟩ 2 =
      .ok ⟨(uusd, uluna), ⟨0⟩, 2, 10⟩ ∧
    (⟨(uusd, uluna), ⟨0⟩, 2, 10⟩ : CachedExchangeRate).get_rate (uusd, uluna) =
      .ok ⟨0⟩ ∧
    (⟨(uusd, uluna), ⟨0⟩, 2, 10⟩ : CachedExchangeRate).get_rate (uluna, uusd) =
      .error .panicUnwrap := by
  refine ⟨rfl, rfl, rfl⟩

/-- C10: for every sender and every supplied rate (zero included), the
fixed-rate provider's `UpdateExchangeRate` handler succeeds, stores the value
verbatim, and the subsequent forward rate query returns exactly that value. -/
theorem update_exchange_rate_no_validation (cfg : FixedRateConfig)
    (info : String) (rate : Decimal) :
    fixed_rate_execute cfg info (.updateExchangeRate rate) =
      .ok { cfg with exchange_rate := rate } ∧
    query_rate { cfg with exchange_rate := rate }
      cfg.asset_infos.1 cfg.asset_infos.2 = .ok rate := by
  constructor
  · rfl
  · simp [query_rate]

/-- C5: the interpolated amp equals `init_amp` at `init_amp_time` and
`next_amp` at `next_amp_time` (when the ramp is nondegenerate), is monotone in
`now` in the direction of the ramp, and is constantly `init_amp` when
`next_amp_time = init_amp_time`. -/
theorem current_amp_endpoints_and_monotone (s : AmpSchedule) :
    current_amp s s.init_amp_time = s.init_amp ∧
    (s.init_amp_time < s.next_amp_time →
      current_amp s s.next_amp_time = s.next_amp) ∧
    (∀ t1 t2, t1 ≤ t2 →
      (s.init_amp ≤ s.next_amp → current_amp s t1 ≤ current_amp s t2) ∧
      (s.next_amp ≤ s.init_amp → current_amp s t2 ≤ current_amp s t1)) ∧
    (s.next_amp_time = s.init_amp_time → ∀ now, current_amp s now = s.init_amp) := by
  refine ⟨?_, ?_, ?_, ?_⟩
  · by_cases hflat : s.next_amp_time = s.init_amp_time
    · simp [current_amp, hflat]
    · simp [current_amp, hflat]
  · intro hlt
    have hflat : ¬ s.next_amp_time = s.init_amp_time := by omega
    have hT : 0 < s.next_amp_time - s.init_amp_time := by omega
    simp only [current_amp, if_neg hflat, min_self]
    by_cases hup : s.init_amp ≤ s.next_amp
    · rw [if_pos hup, Nat.mul_div_cancel _ hT]
      omega
    · rw [if_neg hup, Nat.mul_div_cancel _ hT]
      omega
  · intro t1 t2 ht
    by_cases hflat : s.next_amp_time = s.init_amp_time
    · constructor <;> intro _ <;> simp [current_amp, hflat]
    · have he : min (t1 - s.init_amp_time) (s.next_amp_time - s.init_amp_time) ≤
          min (t2 - s.init_amp_time) (s.next_amp_time - s.init_amp_time) :=
        min_le_min (Nat.sub_le_sub_right ht _) le_rfl
      constructor
      · intro hup
        simp only [current_amp, if_neg hflat, if_pos hup]
        exact Nat.add_le_add_left
          (Nat.div_le_div_right (Nat.mul_le_mul le_rfl he)) _
      · intro hdown
        simp only [current_amp, if_neg hflat]
        by_cases hup : s.init_amp ≤ s.next_amp
        · have h0 : s.next_amp - s.init_amp = 0 := by omega
          simp [if_pos hup, h0]
        · simp only [if_neg hup]
          exact Nat.sub_le_sub_left
            (Nat.div_le_div_right (Nat.mul_le_mul le_rfl he)) _
  · intro hflat now
    simp [current_amp, hflat]

/-- Closed witness for C5: the sample ramp 100 to 250 over [1000, 2000]
reaches 250 at its end time. -/
theorem current_amp_endpoints_and_monotone_witness :
    current_amp ⟨100, 1000, 250, 2000⟩ 2000 = 250 :=
  (current_amp_endpoints_and_monotone ⟨100, 1000, 250, 2000⟩).2.1 (by decide)

/-- C6: `start_ramp` rejects a zero or above-`MAX_AMP` target with
`IncorrectAmp`; given a valid target, rejects an old/new ratio beyond
`MAX_AMP_CHANGE` with `MaxAmpChangeAssertion`; given a valid target and ratio,
rejects a call within `MIN_AMP_CHANGING_TIME` seconds of the previous ramp
start with `MinAmpChangingTimeAssertion`; in each failing case the schedule is
unchanged. -/
theorem start_ramp_validation (s : AmpSchedule) (a t now : ℕ) :
    ((a = 0 ∨ MAX_AMP < a) →
      start_ramp s a t now = .error .incorrectAmp ∧
      afterStartRamp s a t now = s) ∧
    (¬ (a = 0 ∨ MAX_AMP < a) →
      (a * MAX_AMP_CHANGE < current_amp s now ∨
        current_amp s now * MAX_AMP_CHANGE < a) →
      start_ramp s a t now = .error .maxAmpChangeAssertion ∧
      afterStartRamp s a t now = s) ∧
    (¬ (a = 0 ∨ MAX_AMP < a) →
      ¬ (a * MAX_AMP_CHANGE < current_amp s now ∨
        current_amp s now * MAX_AMP_CHANGE < a) →
      now < s.init_amp_time + MIN_AMP_CHANGING_TIME →
      start_ramp s a t now = .error .minAmpChangingTimeAssertion ∧
      afterStartRamp s a t now = s) := by
  refine ⟨?_, ?_, ?_⟩
  · intro h
    have he : start_ramp s a t now = .error .incorrectAmp := by
      simp [start_ramp, h]
    exact ⟨he, by simp [afterStartRamp, he]⟩
  · intro h1 h2
    have he : start_ramp s a t now = .error .maxAmpChangeAssertion := by
      simp [start_ramp, h1, h2]
    exact ⟨he, by simp [afterStartRamp, he]⟩
  · intro h1 h2 h3
    have he : start_ramp s a t now = .error .minAmpChangingTimeAssertion := by
      simp [start_ramp, h1, h2, h3]
    exact ⟨he, by simp [afterStartRamp, he]⟩

/-- Closed witness for C6: on a flat schedule at amp 100, the three rejection
paths fire at concrete inputs. -/
theorem start_ramp_validation_witness :
    start_ramp ⟨100, 0, 100, 0⟩ 0 5 10 = .error .incorrectAmp ∧
    start_ramp ⟨100, 0, 100, 0⟩ 2000 5 10 = .error .maxAmpChangeAssertion ∧
    start_ramp ⟨100, 0, 100, 0⟩ 150 5 10 = .error .minAmpChangingTimeAssertion :=
  ⟨((start_ramp_validation ⟨100, 0, 100, 0⟩ 0 5 10).1 (Or.inl rfl)).1,
   ((start_ramp_validation ⟨100, 0, 100, 0⟩ 2000 5 10).2.1
      (by decide) (by decide)).1,
   ((start_ramp_validation ⟨100, 0, 100, 0⟩ 150 5 10).2.2
      (by decide) (by decide) (by decide)).1⟩

/-- Exactness of the invariant on balanced pools: `compute_d x x amp = 2x`,
converging in a single Newton step (every division involved is exact). -/
theorem compute_d_balanced (x amp : ℕ) (hx : 1 ≤ x) (ha : 1 ≤ amp) :
    compute_d x x amp = some (2 * x) := by
  have ht : 0 < x + x := by omega
  have h2 : x * 2 = x + x := by ring
  have hdp : d_p x x (x + x) = x + x := by
    simp only [d_p, h2]
    rw [Nat.mul_div_cancel_left _ ht, Nat.mul_div_cancel_left _ ht]
  have key : d_step (amp * 4) (x + x) x x (x + x) = x + x := by
    simp only [d_step, hdp]
    have hsub : amp * 4 - 1 + 3 = amp * 4 + 2 := by omega
    have hden : (amp * 4 - 1) * (x + x) + 3 * (x + x) =
        (amp * 4 + 2) * (x + x) := by
      rw [← Nat.add_mul, hsub]
    have hnum : amp * 4 * (x + x) + (x + x) * 2 = (amp * 4 + 2) * (x + x) := by
      ring
    rw [hden, hnum]
    exact Nat.mul_div_cancel_left (x + x) (Nat.mul_pos (by omega) ht)
  have hiter : d_iter (amp * 4) (x + x) x x (31 + 1) (x + x) = some (x + x) :=
    d_iter_converged (amp * 4) (x + x) x x (x + x) 31 key
  calc compute_d x x amp = d_iter (amp * 4) (x + x) x x ITERATIONS (x + x) := rfl
    _ = some (x + x) := hiter
    _ = some (2 * x) := by rw [two_mul]

/-- C1 counterexample: at the valid input `x₀ = 3`, `x₁ = 434`, `amp = 100`
(scaled amp of the unscaled value 1), `compute_d` converges to 405 but
`compute_y` returns 432, two units below `x₁ = 434`: the round trip is not
within unit rounding tolerance. -/
theorem compute_dy_roundtrip_cex :
    compute_d 3 434 100 = some 405 ∧
    compute_y 3 405 100 = some 432 ∧
    roundTripWithinOne 3 434 100 = false := by
  refine ⟨rfl, rfl, rfl⟩

/-- C1 amended: the one-unit round trip does not hold for all valid inputs;
it is exact on balanced pools — `compute_d(x, x, amp) = 2x` for every positive
`x` and `amp` — and the one-unit round trip holds on near-balanced small
pools (verified exhaustively for all `1 ≤ x₀, x₁ ≤ 32` at scaled amp 100),
while skewed pools can miss by more than one unit. -/
theorem compute_dy_roundtrip_amended :
    (∀ x amp : ℕ, 1 ≤ x → 1 ≤ amp → compute_d x x amp = some (2 * x)) ∧
    (∀ x0, x0 < 33 → ∀ x1, x1 < 33 → 1 ≤ x0 → 1 ≤ x1 →
      roundTripWithinOne x0 x1 100 = true) := by
  constructor
  · exact fun x amp hx ha => compute_d_balanced x amp hx ha
  · decide

/-- Closed witness for C1 (amended): a balanced pool of 5 and 5, and the small
pool (3, 7), both at scaled amp 100. -/
theorem compute_dy_roundtrip_amended_witness :
    compute_d 5 5 100 = some (2 * 5) ∧ roundTripWithinOne 3 7 100 = true :=
  ⟨compute_dy_roundtrip_amended.1 5 100 (by decide) (by decide),
   compute_dy_roundtrip_amended.2 3 (by decide) 7 (by decide) (by decide)
     (by decide)⟩

end Astroport
